import Mathlib

/-!
Shallow embedding of the `intel-oc-mbox` tool (src/main.rs) and proofs of
the specification claims about it.

The program has two layers:

* an MSR accessor (`Msr`): seek the per-CPU register file to the bound
  register number, then read or write exactly 8 little-endian bytes;
* a mailbox client (`OcMbox`) on MSR `0x150`: encode a command into a
  64-bit request word with the busy bit (bit 63) set, write it, and poll
  the register until bit 63 reads 0, then decode bits 32-39 as a status
  byte and bits 0-31 as the result data.

Machine integers are embedded as `Nat` with explicit `% 2 ^ w`
truncation exactly where the Rust code casts.  The hardware register is
embedded as the list of values successive `msr.read()` calls return
(`Except` for I/O failures); the unbounded busy-wait loop becomes a
structurally recursive function that returns `none` when the list is
exhausted while still busy, modelling non-termination.
-/

namespace OcMbox

/-- Result of one `msr.read()` call: an I/O error (carrying its message)
or the 64-bit value read. -/
abbrev ReadResult := Except String Nat

/-- The `errinfo` selected by the `match c` in `OcMbox::poll_result`:
status 1 is "Overclocking is locked", status `0x1f` is "Unrecognized
command", anything else displays the raw status byte (decimal, as Rust
`Display` for `u8` does). -/
def mboxErrinfo (c : Nat) : String :=
  if c = 1 then "Overclocking is locked"
  else if c = 0x1f then "Unrecognized command"
  else toString c

/-- The full error message built by
`format!("Mailbox returned error: {}", errinfo)`. -/
def mboxErrMsg (c : Nat) : String :=
  "Mailbox returned error: " ++ mboxErrinfo c

/-- One iteration of the loop body of `OcMbox::poll_result` applied to a
value `val` read from the register: `r = val >> 63`,
`c = (val >> 32) as u8`, `d = val as u32`.  Returns `none` when the busy
bit is still set (the loop continues), otherwise the decoded
`Result<u32>`: `Ok d` for status 0, the mailbox error otherwise. -/
def pollStep (val : Nat) : Option (Except String Nat) :=
  let r := val >>> 63
  let c := (val >>> 32) % 2 ^ 8
  let d := val % 2 ^ 32
  if r = 0 then
    some (if c = 0 then Except.ok d else Except.error (mboxErrMsg c))
  else
    none

/-- `OcMbox::poll_result` over the list of values the register returns to
successive reads.  Result `none` models the infinite busy-wait (reads
exhausted while busy); `some (.error e, rest)` models `Err(e)` from a
failed `msr.read()`; `some (.ok res, rest)` models `Ok(res)`.  `rest` is
the part of the read sequence not consumed, so the number of reads
performed is the length difference. -/
def poll_result : List ReadResult → Option (Except String (Except String Nat) × List ReadResult)
  | [] => none
  | Except.error e :: rest => some (Except.error e, rest)
  | Except.ok val :: rest =>
    match pollStep val with
    | some res => some (Except.ok res, rest)
    | none => poll_result rest

/-- The 64-bit request word `msg` built by `OcMbox::cmd`:
`data | command << 32 | param1 << 40 | param2 << 48 | 1 << 63`
(the casts `as u64` are widening, hence exact on in-range arguments). -/
def cmdMsg (command param1 param2 data : Nat) : Nat :=
  data ||| (command <<< 32) ||| (param1 <<< 40) ||| (param2 <<< 48) ||| (1 <<< 63)

/-- Environment of one `cmd` exchange: the values successive register
reads return (drain phase first, then, after the write, the await phase
continues on the same sequence), and the outcome of the `msr.write`. -/
structure Env where
  reads : List ReadResult
  writeResult : Except String Unit

/-- `OcMbox::cmd`: drain (`let _ = self.poll_result()?` — the inner
result is discarded, only an I/O error propagates), write the request
word, await (`self.poll_result()?` — the inner `Result<u32>` is the
return value).  `none` models non-termination of either busy-wait. -/
def cmd (command param1 param2 data : Nat) (env : Env) : Option (Except String Nat) :=
  match poll_result env.reads with
  | none => none
  | some (Except.error e, _) => some (Except.error e)
  | some (Except.ok _, rest) =>
    match env.writeResult with
    | Except.error e => some (Except.error e)
    | Except.ok _ =>
      match poll_result rest with
      | none => none
      | some (Except.error e, _) => some (Except.error e)
      | some (Except.ok res, _) => some res

/-- The list of 64-bit words `cmd` writes to the mailbox register: the
single request word when the drain phase completes without an I/O error,
nothing if the drain fails or never terminates. -/
def cmdWrites (command param1 param2 data : Nat) (env : Env) : List Nat :=
  match poll_result env.reads with
  | none => []
  | some (Except.error _, _) => []
  | some (Except.ok _, _) => [cmdMsg command param1 param2 data]

end OcMbox


namespace Msr

/-! ### The MSR accessor (module `msr` of src/main.rs) -/

/-- `msr::OC_MBOX`. -/
def OC_MBOX : Nat := 0x150

/-- `msr::FLEX_RATIO`. -/
def FLEX_RATIO : Nat := 0x194

/-- `msr::FLEX_RATIO_OC_LOCK = 1 << 20`. -/
def FLEX_RATIO_OC_LOCK : Nat := 1 <<< 20

/-- The `Msr` handle.  The open device file `dev` is abstracted into the
trace semantics below; `num` is the register number the handle was
constructed with.  No method of the Rust `Msr` takes `&mut self`, so in
this embedding reads and writes are functions of an unchanging handle. -/
structure Msr where
  num : Nat

/-- One operation performed on the underlying `/dev/cpu/N/msr` file. -/
inductive FileOp where
  | seekTo (pos : Nat)
  | readExact (count : Nat)
  | writeAll (bytes : List Nat)

/-- `value.to_le_bytes()`: the 8 little-endian bytes of a `u64`. -/
def toLeBytes8 (value : Nat) : List Nat :=
  (List.range 8).map (fun i => value >>> (8 * i) % 2 ^ 8)

/-- `Msr::seek`: seek the device file to `SeekFrom::Start(self.num)`. -/
def Msr.seekOps (m : Msr) : List FileOp := [FileOp.seekTo m.num]

/-- File operations of `Msr::read`: seek, then read exactly 8 bytes. -/
def Msr.readOps (m : Msr) : List FileOp := m.seekOps ++ [FileOp.readExact 8]

/-- File operations of `Msr::write`: seek, then write all 8 little-endian
bytes of `value`. -/
def Msr.writeOps (m : Msr) (value : Nat) : List FileOp :=
  m.seekOps ++ [FileOp.writeAll (toLeBytes8 value)]

/-- A request issued through one `Msr` handle. -/
inductive MsrReq where
  | readReq
  | writeReq (value : Nat)

/-- The file operations performed by a sequence of `read`/`write` calls
through one handle. -/
def msrProgram (m : Msr) : List MsrReq → List FileOp
  | [] => []
  | MsrReq.readReq :: rest => m.readOps ++ msrProgram m rest
  | MsrReq.writeReq v :: rest => m.writeOps v ++ msrProgram m rest

/-- Byte ranges `(start, length)` accessed by a list of file operations.
The first argument is the current file position: a seek moves it, a read
or write accesses memory at it and advances it by the transfer length. -/
def accesses : Nat → List FileOp → List (Nat × Nat)
  | _, [] => []
  | _, FileOp.seekTo p :: rest => accesses p rest
  | pos, FileOp.readExact n :: rest => (pos, n) :: accesses (pos + n) rest
  | pos, FileOp.writeAll bs :: rest => (pos, bs.length) :: accesses (pos + bs.length) rest

end Msr

namespace OcMbox

/-! ### The top-level routine (`main` of src/main.rs) -/

/-- `oc_mbox::CMD_VF_OVERRIDE_READ`. -/
def CMD_VF_OVERRIDE_READ : Nat := 0x10

/-- The `repr(u8)` enum `oc_mbox::Domain`. -/
inductive Domain where
  | IaCore
  | GtSlices
  | CboLlcRing
  | GtUnslice
  | SystemAgent

/-- `domain as u8`: the discriminant (`IaCore = 0`, the rest assigned in
sequence). -/
def Domain.toU8 : Domain → Nat
  | Domain.IaCore => 0
  | Domain.GtSlices => 1
  | Domain.CboLlcRing => 2
  | Domain.GtUnslice => 3
  | Domain.SystemAgent => 4

/-- The array `[IaCore, GtSlices, CboLlcRing, GtUnslice, SystemAgent]`
that `main` iterates over. -/
def domains : List Domain :=
  [Domain.IaCore, Domain.GtSlices, Domain.CboLlcRing, Domain.GtUnslice,
    Domain.SystemAgent]

/-- One lowercase hexadecimal digit character, as Rust `{:x}` prints. -/
def hexDigit (n : Nat) : Char :=
  if n < 10 then Char.ofNat (48 + n) else Char.ofNat (87 + n)

/-- `format!("{:08x}", v)` for a `u32` value: exactly 8 lowercase
hexadecimal digits, zero padded, most significant first. -/
def hex8 (v : Nat) : String :=
  String.mk ((List.range 8).map (fun i => hexDigit (v >>> (4 * (7 - i)) % 16)))

/-- The line printed by
`println!("domain {}: {:08x}", domain as u8, value)`. -/
def domainLine (dom : Domain) (value : Nat) : String :=
  "domain " ++ toString dom.toU8 ++ ": " ++ hex8 value

/-- The boolean `(flex_ratio & msr::FLEX_RATIO_OC_LOCK) != 0` that `main`
reports as the overclocking lock status. -/
def ocLockReport (flex_ratio : Nat) : Bool :=
  decide (flex_ratio &&& Msr.FLEX_RATIO_OC_LOCK ≠ 0)

/-- The line printed by `println!("Overclocking lock: {}", ...)`. -/
def lockLine (flex_ratio : Nat) : String :=
  "Overclocking lock: " ++ toString (ocLockReport flex_ratio)

/-- One iteration of the domain loop in `main`: call
`ocmbox.cmd(CMD_VF_OVERRIDE_READ, domain as _, 0, 0)` and, on success,
print the domain line.  The result records the arguments the iteration
passed to `cmd` together with the printed line. -/
def domainStep (envs : Domain → Env) (dom : Domain) :
    Option (Except String ((Nat × Nat × Nat × Nat) × String)) :=
  match cmd CMD_VF_OVERRIDE_READ dom.toU8 0 0 (envs dom) with
  | none => none
  | some (Except.error e) => some (Except.error e)
  | some (Except.ok v) =>
    some (Except.ok ((CMD_VF_OVERRIDE_READ, dom.toU8, 0, 0), domainLine dom v))

/-- The domain loop of `main` over the list `ds`, where `envs` gives the
register environment each `cmd` call runs against: collects, in order,
each issued command's arguments and the printed line; the `?` operator
aborts at the first error; `none` models a hung busy-wait. -/
def mainLoop (envs : Domain → Env) :
    List Domain → Option (Except String (List ((Nat × Nat × Nat × Nat) × String)))
  | [] => some (Except.ok [])
  | dom :: ds =>
    match domainStep envs dom with
    | none => none
    | some (Except.error e) => some (Except.error e)
    | some (Except.ok entry) =>
      match mainLoop envs ds with
      | none => none
      | some (Except.error e) => some (Except.error e)
      | some (Except.ok rest) => some (Except.ok (entry :: rest))

end OcMbox


namespace OcMbox

/-! ### Basic facts about the poll loop -/

theorem pollStep_busy {val : Nat} (h : val >>> 63 ≠ 0) : pollStep val = none := by
  simp [pollStep, h]

theorem pollStep_idle_ok {val : Nat} (hr : val >>> 63 = 0)
    (hc : (val >>> 32) % 2 ^ 8 = 0) :
    pollStep val = some (Except.ok (val % 2 ^ 32)) := by
  have hc' : val >>> 32 % 256 = 0 := by simpa using hc
  simp [pollStep, hr, hc']

theorem pollStep_idle_err {val : Nat} (hr : val >>> 63 = 0)
    (hc : (val >>> 32) % 2 ^ 8 ≠ 0) :
    pollStep val = some (Except.error (mboxErrMsg ((val >>> 32) % 2 ^ 8))) := by
  have hc' : ¬ val >>> 32 % 256 = 0 := by simpa using hc
  simp [pollStep, hr, hc']

/-- Reads with the busy bit set are skipped by `poll_result`. -/
theorem poll_result_skip_busy (pre : List Nat) (l : List ReadResult)
    (h : ∀ v ∈ pre, v >>> 63 ≠ 0) :
    poll_result (pre.map Except.ok ++ l) = poll_result l := by
  induction pre with
  | nil => rfl
  | cons v vs ih =>
    have hv : v >>> 63 ≠ 0 := h v (List.mem_cons_self v vs)
    have hvs : ∀ w ∈ vs, w >>> 63 ≠ 0 := fun w hw => h w (List.mem_cons_of_mem v hw)
    simp [poll_result, pollStep_busy hv, ih hvs]

theorem poll_result_first_idle {val : Nat} (l : List ReadResult)
    (hr : val >>> 63 = 0) :
    poll_result (Except.ok val :: l)
      = some (Except.ok ((pollStep val).getD (Except.ok 0)), l) := by
  rcases Nat.eq_zero_or_pos ((val >>> 32) % 2 ^ 8) with hc | hc
  · simp [poll_result, pollStep_idle_ok hr hc]
  · simp [poll_result, pollStep_idle_err hr (Nat.pos_iff_ne_zero.mp hc)]

theorem poll_result_read_err (e : String) (l : List ReadResult) :
    poll_result (Except.error e :: l) = some (Except.error e, l) := rfl

/-- If some successfully read value in the sequence has the busy bit
clear, the poll loop terminates (returns a result). -/
theorem poll_result_terminates (l : List ReadResult)
    (h : ∃ v, Except.ok v ∈ l ∧ v >>> 63 = 0) :
    (poll_result l).isSome = true := by
  induction l with
  | nil => rcases h with ⟨v, hv, _⟩; cases hv
  | cons x xs ih =>
    rcases h with ⟨v, hv, hr⟩
    cases x with
    | error e => simp [poll_result]
    | ok w =>
      by_cases hw : w >>> 63 = 0
      · rw [poll_result_first_idle xs hw]; rfl
      · have : Except.ok v ∈ xs := by
          rcases List.mem_cons.mp hv with heq | hmem
          · cases heq; exact absurd hr hw
          · exact hmem
        simp only [poll_result, pollStep_busy hw]
        exact ih ⟨v, this, hr⟩

/-! ### Bit-field arithmetic for the request word -/

theorem lor_mod_two_pow (a b n : Nat) :
    (a ||| b) % 2 ^ n = a % 2 ^ n ||| b % 2 ^ n := by
  apply Nat.eq_of_testBit_eq
  intro i
  simp [Nat.testBit_mod_two_pow, Nat.testBit_or, Bool.and_or_distrib_left]

theorem lor_shiftRight (a b n : Nat) :
    (a ||| b) >>> n = a >>> n ||| b >>> n := by
  apply Nat.eq_of_testBit_eq
  intro i
  simp [Nat.testBit_shiftRight, Nat.testBit_or]

theorem shiftRight_eq_zero_of_lt {a n : Nat} (h : a < 2 ^ n) : a >>> n = 0 := by
  rw [Nat.shiftRight_eq_div_pow]
  exact Nat.div_eq_of_lt h

theorem shiftLeft_shiftRight_of_le (a : Nat) {m n : Nat} (h : n ≤ m) :
    (a <<< m) >>> n = a <<< (m - n) := by
  conv_lhs => rw [← Nat.sub_add_cancel h, Nat.shiftLeft_add]
  exact Nat.shiftLeft_shiftRight _ _

theorem shiftLeft_shiftRight_of_ge (a : Nat) {m n : Nat} (h : m ≤ n) :
    (a <<< m) >>> n = a >>> (n - m) := by
  conv_lhs => rw [← Nat.add_sub_cancel' h, Nat.shiftRight_add, Nat.shiftLeft_shiftRight]

theorem shiftLeft_mod_two_pow {a m n : Nat} (h : n ≤ m) :
    (a <<< m) % 2 ^ n = 0 := by
  rw [← Nat.sub_add_cancel h, Nat.shiftLeft_add, Nat.shiftLeft_eq]
  exact Nat.mul_mod_left _ _

/-- Field extraction: the low 32 bits of the request word are the data
argument. -/
theorem cmdMsg_data {c p1 p2 d : Nat} (hd : d < 2 ^ 32) :
    cmdMsg c p1 p2 d % 2 ^ 32 = d := by
  simp only [cmdMsg, lor_mod_two_pow]
  rw [Nat.mod_eq_of_lt hd,
    shiftLeft_mod_two_pow (by norm_num), shiftLeft_mod_two_pow (by norm_num),
    shiftLeft_mod_two_pow (by norm_num), shiftLeft_mod_two_pow (by norm_num)]
  simp

/-- Field extraction: bits 32-39 of the request word are the command
byte. -/
theorem cmdMsg_command {c p1 p2 d : Nat} (hc : c < 2 ^ 8) (hd : d < 2 ^ 32) :
    cmdMsg c p1 p2 d >>> 32 % 2 ^ 8 = c := by
  have h0 : d >>> 32 = 0 := shiftRight_eq_zero_of_lt hd
  have h1 : (c <<< 32) >>> 32 = c := Nat.shiftLeft_shiftRight _ _
  have h2 : (p1 <<< 40) >>> 32 = p1 <<< 8 := by
    rw [show (40 : Nat) = 8 + 32 by norm_num, Nat.shiftLeft_add, Nat.shiftLeft_shiftRight]
  have h3 : (p2 <<< 48) >>> 32 = p2 <<< 16 := by
    rw [show (48 : Nat) = 16 + 32 by norm_num, Nat.shiftLeft_add, Nat.shiftLeft_shiftRight]
  have h4 : (1 <<< 63) >>> 32 = 1 <<< 31 := by
    rw [show (63 : Nat) = 31 + 32 by norm_num, Nat.shiftLeft_add, Nat.shiftLeft_shiftRight]
  simp only [cmdMsg, lor_shiftRight, h0, h1, h2, h3, h4, lor_mod_two_pow,
    shiftLeft_mod_two_pow (a := p1) (m := 8) (n := 8) (Nat.le_refl 8),
    shiftLeft_mod_two_pow (a := p2) (m := 16) (n := 8) (by norm_num),
    shiftLeft_mod_two_pow (a := 1) (m := 31) (n := 8) (by norm_num),
    Nat.mod_eq_of_lt hc, Nat.zero_mod, Nat.zero_or, Nat.or_zero]

/-- Field extraction: bits 40-47 of the request word are the first
parameter byte. -/
theorem cmdMsg_param1 {c p1 p2 d : Nat} (hc : c < 2 ^ 8) (hp1 : p1 < 2 ^ 8)
    (hd : d < 2 ^ 32) :
    cmdMsg c p1 p2 d >>> 40 % 2 ^ 8 = p1 := by
  have h0 : d >>> 40 = 0 := shiftRight_eq_zero_of_lt (lt_trans hd (by norm_num))
  have h1 : (c <<< 32) >>> 40 = 0 := by
    rw [shiftLeft_shiftRight_of_ge c (by norm_num)]
    exact shiftRight_eq_zero_of_lt (lt_of_lt_of_le hc (by norm_num))
  have h2 : (p1 <<< 40) >>> 40 = p1 := Nat.shiftLeft_shiftRight _ _
  have h3 : (p2 <<< 48) >>> 40 = p2 <<< 8 := by
    rw [show (48 : Nat) = 8 + 40 by norm_num, Nat.shiftLeft_add, Nat.shiftLeft_shiftRight]
  have h4 : (1 <<< 63) >>> 40 = 1 <<< 23 := by
    rw [show (63 : Nat) = 23 + 40 by norm_num, Nat.shiftLeft_add, Nat.shiftLeft_shiftRight]
  simp only [cmdMsg, lor_shiftRight, h0, h1, h2, h3, h4, lor_mod_two_pow,
    shiftLeft_mod_two_pow (a := p2) (m := 8) (n := 8) (Nat.le_refl 8),
    shiftLeft_mod_two_pow (a := 1) (m := 23) (n := 8) (by norm_num),
    Nat.mod_eq_of_lt hp1, Nat.zero_mod, Nat.zero_or, Nat.or_zero]

/-- Field extraction: bits 48-55 of the request word are the second
parameter byte. -/
theorem cmdMsg_param2 {c p1 p2 d : Nat} (hc : c < 2 ^ 8) (hp1 : p1 < 2 ^ 8)
    (hp2 : p2 < 2 ^ 8) (hd : d < 2 ^ 32) :
    cmdMsg c p1 p2 d >>> 48 % 2 ^ 8 = p2 := by
  have h0 : d >>> 48 = 0 := shiftRight_eq_zero_of_lt (lt_trans hd (by norm_num))
  have h1 : (c <<< 32) >>> 48 = 0 := by
    rw [shiftLeft_shiftRight_of_ge c (by norm_num)]
    exact shiftRight_eq_zero_of_lt (lt_of_lt_of_le hc (by norm_num))
  have h2 : (p1 <<< 40) >>> 48 = 0 := by
    rw [shiftLeft_shiftRight_of_ge p1 (by norm_num)]
    exact shiftRight_eq_zero_of_lt (lt_of_lt_of_le hp1 (by norm_num))
  have h3 : (p2 <<< 48) >>> 48 = p2 := Nat.shiftLeft_shiftRight _ _
  have h4 : (1 <<< 63) >>> 48 = 1 <<< 15 := by
    rw [show (63 : Nat) = 15 + 48 by norm_num, Nat.shiftLeft_add, Nat.shiftLeft_shiftRight]
  simp only [cmdMsg, lor_shiftRight, h0, h1, h2, h3, h4, lor_mod_two_pow,
    shiftLeft_mod_two_pow (a := 1) (m := 15) (n := 8) (by norm_num),
    Nat.mod_eq_of_lt hp2, Nat.zero_mod, Nat.zero_or, Nat.or_zero]

/-- The busy bit (bit 63) of the request word is always set. -/
theorem cmdMsg_busy {c p1 p2 d : Nat} (hc : c < 2 ^ 8) (hp1 : p1 < 2 ^ 8)
    (hp2 : p2 < 2 ^ 8) (hd : d < 2 ^ 32) :
    cmdMsg c p1 p2 d >>> 63 = 1 := by
  have h0 : d >>> 63 = 0 := shiftRight_eq_zero_of_lt (lt_trans hd (by norm_num))
  have h1 : (c <<< 32) >>> 63 = 0 := by
    rw [shiftLeft_shiftRight_of_ge c (by norm_num)]
    exact shiftRight_eq_zero_of_lt (lt_of_lt_of_le hc (by norm_num))
  have h2 : (p1 <<< 40) >>> 63 = 0 := by
    rw [shiftLeft_shiftRight_of_ge p1 (by norm_num)]
    exact shiftRight_eq_zero_of_lt (lt_of_lt_of_le hp1 (by norm_num))
  have h3 : (p2 <<< 48) >>> 63 = 0 := by
    rw [shiftLeft_shiftRight_of_ge p2 (by norm_num)]
    exact shiftRight_eq_zero_of_lt (lt_of_lt_of_le hp2 (by norm_num))
  have h4 : (1 <<< 63) >>> 63 = 1 := Nat.shiftLeft_shiftRight _ _
  simp only [cmdMsg, lor_shiftRight, h0, h1, h2, h3, h4, Nat.zero_or, Nat.or_zero]

end OcMbox

namespace Msr

theorem toLeBytes8_length (value : Nat) : (toLeBytes8 value).length = 8 := by
  simp [toLeBytes8]

end Msr

namespace OcMbox

theorem hex8_length (v : Nat) : (hex8 v).length = 8 := by
  simp [hex8, String.length]

theorem hexDigit_mem_charset : ∀ n, n < 16 → hexDigit n ∈ "0123456789abcdef".data := by
  decide

theorem hex8_chars (v : Nat) :
    ∀ ch ∈ (hex8 v).data, ch ∈ "0123456789abcdef".data := by
  intro ch hch
  simp only [hex8, List.mem_map] at hch
  rcases hch with ⟨i, _, rfl⟩
  exact hexDigit_mem_charset _ (Nat.mod_lt _ (by norm_num))

/-! ### Claim theorems -/

/-- C3: Encoding round-trip: for every command byte, param1 byte, param2
byte, and 32-bit data word, building the 64-bit request word (data in
bits 0-31, command in bits 32-39, param1 in bits 40-47, param2 in bits
48-55, bit 63 set) and then re-extracting each field from that word
yields the original four values. -/
theorem claim_C3 (command param1 param2 data : Nat)
    (hc : command < 2 ^ 8) (hp1 : param1 < 2 ^ 8) (hp2 : param2 < 2 ^ 8)
    (hd : data < 2 ^ 32) :
    cmdMsg command param1 param2 data % 2 ^ 32 = data
    ∧ cmdMsg command param1 param2 data >>> 32 % 2 ^ 8 = command
    ∧ cmdMsg command param1 param2 data >>> 40 % 2 ^ 8 = param1
    ∧ cmdMsg command param1 param2 data >>> 48 % 2 ^ 8 = param2 :=
  ⟨cmdMsg_data hd, cmdMsg_command hc hd, cmdMsg_param1 hc hp1 hd,
    cmdMsg_param2 hc hp1 hp2 hd⟩

theorem claim_C3_witness :
    (0x10 : Nat) < 2 ^ 8 ∧ (3 : Nat) < 2 ^ 8 ∧ (0xab : Nat) < 2 ^ 8
    ∧ (0xdeadbeef : Nat) < 2 ^ 32
    ∧ (cmdMsg 0x10 3 0xab 0xdeadbeef % 2 ^ 32 = 0xdeadbeef
      ∧ cmdMsg 0x10 3 0xab 0xdeadbeef >>> 32 % 2 ^ 8 = 0x10
      ∧ cmdMsg 0x10 3 0xab 0xdeadbeef >>> 40 % 2 ^ 8 = 3
      ∧ cmdMsg 0x10 3 0xab 0xdeadbeef >>> 48 % 2 ^ 8 = 0xab) :=
  ⟨by decide, by decide, by decide, by decide,
    claim_C3 0x10 3 0xab 0xdeadbeef (by decide) (by decide) (by decide) (by decide)⟩

/-- C6: For every 64-bit value read from the flex-ratio register (index
0x194), the reported overclocking-lock status is true exactly when bit
20 of that value is set, and false when bit 20 is clear. -/
theorem claim_C6 (flex_ratio : Nat) :
    ocLockReport flex_ratio = flex_ratio.testBit 20 := by
  simp only [ocLockReport, Msr.FLEX_RATIO_OC_LOCK, Nat.one_shiftLeft,
    Nat.and_two_pow]
  cases h : flex_ratio.testBit 20 <;> simp [h]

/-- C8: For every invocation of cmd with any command, param1, param2, and
data arguments, the 64-bit word cmd writes to the mailbox register has
bit 63 set to 1. -/
theorem claim_C8 (command param1 param2 data : Nat) (env : Env) (w : Nat)
    (hc : command < 2 ^ 8) (hp1 : param1 < 2 ^ 8) (hp2 : param2 < 2 ^ 8)
    (hd : data < 2 ^ 32)
    (hw : w ∈ cmdWrites command param1 param2 data env) :
    w >>> 63 = 1 := by
  rcases hpr : poll_result env.reads with _ | ⟨res, rest⟩
  · simp [cmdWrites, hpr] at hw
  · cases res with
    | error e => simp [cmdWrites, hpr] at hw
    | ok r =>
      simp only [cmdWrites, hpr, List.mem_singleton] at hw
      subst hw
      exact cmdMsg_busy hc hp1 hp2 hd

theorem claim_C8_witness :
    cmdMsg 0x10 0 0 0 ∈ cmdWrites 0x10 0 0 0 ⟨[Except.ok 0], Except.ok ()⟩
    ∧ cmdMsg 0x10 0 0 0 >>> 63 = 1 :=
  ⟨by decide,
    claim_C8 0x10 0 0 0 ⟨[Except.ok 0], Except.ok ()⟩ (cmdMsg 0x10 0 0 0)
      (by decide) (by decide) (by decide) (by decide) (by decide)⟩

/-- C10: Every read and every write on a register handle first seeks the
file to the byte offset equal to the bound register number, and the
handle's register number is never modified after construction (no `Msr`
operation takes a mutable handle in the embedding), so all accesses
performed through one handle target only the register it was opened for:
every byte range accessed by any request sequence is exactly
`(m.num, 8)`. -/
theorem claim_C10 (m : Msr.Msr) (reqs : List Msr.MsrReq) (pos0 : Nat) :
    ∀ a ∈ Msr.accesses pos0 (Msr.msrProgram m reqs), a = (m.num, 8) := by
  induction reqs generalizing pos0 with
  | nil =>
    intro a ha
    cases ha
  | cons r rest ih =>
    intro a ha
    cases r with
    | readReq =>
      simp only [Msr.msrProgram, Msr.Msr.readOps, Msr.Msr.seekOps,
        List.cons_append, List.nil_append, Msr.accesses] at ha
      rcases List.mem_cons.mp ha with rfl | hmem
      · rfl
      · exact ih _ _ hmem
    | writeReq v =>
      simp only [Msr.msrProgram, Msr.Msr.writeOps, Msr.Msr.seekOps,
        List.cons_append, List.nil_append, Msr.accesses,
        Msr.toLeBytes8_length] at ha
      rcases List.mem_cons.mp ha with rfl | hmem
      · rfl
      · exact ih _ _ hmem

theorem claim_C10_witness :
    ((0x150 : Nat), (8 : Nat)) ∈
      Msr.accesses 0 (Msr.msrProgram ⟨0x150⟩
        [Msr.MsrReq.readReq, Msr.MsrReq.writeReq 5, Msr.MsrReq.readReq])
    ∧ ((0x150 : Nat), (8 : Nat)) = ((0x150 : Nat), (8 : Nat)) :=
  ⟨by decide,
    claim_C10 ⟨0x150⟩
      [Msr.MsrReq.readReq, Msr.MsrReq.writeReq 5, Msr.MsrReq.readReq] 0
      (0x150, 8) (by decide)⟩

end OcMbox

namespace OcMbox

/-- C1: For every response word read during the await phase whose busy
bit (bit 63) is 0 and whose status byte (bits 32-39) is 0, cmd returns
success carrying exactly the low 32 bits of that word, unchanged.  The
await phase is the part of the read sequence after the first idle word
`w0` (which ends the drain phase); `apre` are the still-busy reads the
await loop skips and `val` is the first idle response word it decodes. -/
theorem claim_C1 (command param1 param2 data w0 val : Nat)
    (dpre apre : List Nat) (rest : List ReadResult)
    (hdpre : ∀ v ∈ dpre, v >>> 63 ≠ 0) (hw0 : w0 >>> 63 = 0)
    (hapre : ∀ v ∈ apre, v >>> 63 ≠ 0)
    (hval : val >>> 63 = 0) (hstatus : val >>> 32 % 2 ^ 8 = 0) :
    cmd command param1 param2 data
      ⟨dpre.map Except.ok ++ Except.ok w0 ::
        (apre.map Except.ok ++ Except.ok val :: rest), Except.ok ()⟩
      = some (Except.ok (val % 2 ^ 32)) := by
  have hdrain :
      poll_result (dpre.map Except.ok ++ Except.ok w0 ::
        (apre.map Except.ok ++ Except.ok val :: rest))
      = some (Except.ok ((pollStep w0).getD (Except.ok 0)),
          apre.map Except.ok ++ Except.ok val :: rest) := by
    rw [poll_result_skip_busy dpre _ hdpre, poll_result_first_idle _ hw0]
  have hawait :
      poll_result (apre.map Except.ok ++ Except.ok val :: rest)
      = some (Except.ok (Except.ok (val % 2 ^ 32)), rest) := by
    rw [poll_result_skip_busy apre _ hapre]
    simp [poll_result, pollStep_idle_ok hval hstatus]
  simp [cmd, hdrain, hawait]

theorem claim_C1_witness :
    (∀ v ∈ [(1 : Nat) <<< 63], v >>> 63 ≠ 0)
    ∧ ((0 : Nat) >>> 63 = 0)
    ∧ ((7 : Nat) >>> 63 = 0) ∧ ((7 : Nat) >>> 32 % 2 ^ 8 = 0)
    ∧ cmd 0x10 0 0 0
        ⟨[(1 : Nat) <<< 63].map Except.ok ++ Except.ok 0 ::
          ([(1 : Nat) <<< 63].map Except.ok ++ Except.ok 7 :: []), Except.ok ()⟩
        = some (Except.ok (7 % 2 ^ 32)) :=
  ⟨by decide, by decide, by decide, by decide,
    claim_C1 0x10 0 0 0 0 7 [1 <<< 63] [1 <<< 63] []
      (by decide) (by decide) (by decide) (by decide) (by decide)⟩

/-- C2: For every response word with busy bit 0 and a nonzero status
byte, cmd fails (does not return success): status byte 1 yields an error
whose message says overclocking is locked, status byte 0x1f yields an
error whose message says the command is unrecognized, and any other
nonzero status byte yields an error whose message contains that numeric
status code (it ends in its decimal representation). -/
theorem claim_C2 (command param1 param2 data w0 val : Nat)
    (dpre apre : List Nat) (rest : List ReadResult)
    (hdpre : ∀ v ∈ dpre, v >>> 63 ≠ 0) (hw0 : w0 >>> 63 = 0)
    (hapre : ∀ v ∈ apre, v >>> 63 ≠ 0)
    (hval : val >>> 63 = 0) (hst : val >>> 32 % 2 ^ 8 ≠ 0) :
    cmd command param1 param2 data
      ⟨dpre.map Except.ok ++ Except.ok w0 ::
        (apre.map Except.ok ++ Except.ok val :: rest), Except.ok ()⟩
      = some (Except.error (mboxErrMsg (val >>> 32 % 2 ^ 8)))
    ∧ (val >>> 32 % 2 ^ 8 = 1 →
        mboxErrMsg (val >>> 32 % 2 ^ 8)
          = "Mailbox returned error: Overclocking is locked")
    ∧ (val >>> 32 % 2 ^ 8 = 0x1f →
        mboxErrMsg (val >>> 32 % 2 ^ 8)
          = "Mailbox returned error: Unrecognized command")
    ∧ (val >>> 32 % 2 ^ 8 ≠ 1 → val >>> 32 % 2 ^ 8 ≠ 0x1f →
        mboxErrMsg (val >>> 32 % 2 ^ 8)
          = "Mailbox returned error: " ++ toString (val >>> 32 % 2 ^ 8)) := by
  refine ⟨?_, ?_, ?_, ?_⟩
  · have hdrain :
        poll_result (dpre.map Except.ok ++ Except.ok w0 ::
          (apre.map Except.ok ++ Except.ok val :: rest))
        = some (Except.ok ((pollStep w0).getD (Except.ok 0)),
            apre.map Except.ok ++ Except.ok val :: rest) := by
      rw [poll_result_skip_busy dpre _ hdpre, poll_result_first_idle _ hw0]
    have hawait :
        poll_result (apre.map Except.ok ++ Except.ok val :: rest)
        = some (Except.ok (Except.error (mboxErrMsg (val >>> 32 % 2 ^ 8))), rest) := by
      rw [poll_result_skip_busy apre _ hapre]
      simp [poll_result, pollStep_idle_err hval hst]
    simp [cmd, hdrain, hawait]
  · intro h
    rw [h]
    rfl
  · intro h
    rw [h]
    rfl
  · intro h1 h31
    have h1' : val >>> 32 % 256 ≠ 1 := by simpa using h1
    have h31' : val >>> 32 % 256 ≠ 31 := by simpa using h31
    simp [mboxErrMsg, mboxErrinfo, h1', h31']

theorem claim_C2_witness :
    (∀ v ∈ ([] : List Nat), v >>> 63 ≠ 0)
    ∧ ((0 : Nat) >>> 63 = 0)
    ∧ ((1 : Nat) <<< 32 >>> 63 = 0) ∧ ((1 : Nat) <<< 32 >>> 32 % 2 ^ 8 ≠ 0)
    ∧ (cmd 0x10 0 0 0
        ⟨([] : List Nat).map Except.ok ++ Except.ok 0 ::
          (([] : List Nat).map Except.ok ++ Except.ok (1 <<< 32) :: []), Except.ok ()⟩
        = some (Except.error (mboxErrMsg (1 <<< 32 >>> 32 % 2 ^ 8)))
      ∧ ((1 : Nat) <<< 32 >>> 32 % 2 ^ 8 = 1 →
          mboxErrMsg (1 <<< 32 >>> 32 % 2 ^ 8)
            = "Mailbox returned error: Overclocking is locked")
      ∧ ((1 : Nat) <<< 32 >>> 32 % 2 ^ 8 = 0x1f →
          mboxErrMsg (1 <<< 32 >>> 32 % 2 ^ 8)
            = "Mailbox returned error: Unrecognized command")
      ∧ ((1 : Nat) <<< 32 >>> 32 % 2 ^ 8 ≠ 1 → (1 : Nat) <<< 32 >>> 32 % 2 ^ 8 ≠ 0x1f →
          mboxErrMsg (1 <<< 32 >>> 32 % 2 ^ 8)
            = "Mailbox returned error: " ++ toString (1 <<< 32 >>> 32 % 2 ^ 8))) :=
  ⟨by decide, by decide, by decide, by decide,
    claim_C2 0x10 0 0 0 0 (1 <<< 32) [] [] []
      (by decide) (by decide) (by decide) (by decide) (by decide)⟩

/-- C4: The polling loop stops at the first read whose bit 63 is 0: if
the reads after the request write are two busy words then an idle word
with status byte 0 and low 32 bits X, the await phase consumes exactly
those three reads (the unconsumed remainder is `rest`) and cmd reports
X; and in general the await loop terminates (returns a result) whenever
some read in the sequence has bit 63 clear. -/
theorem claim_C4 (command param1 param2 data w0 v1 v2 v3 : Nat)
    (rest : List ReadResult)
    (hw0 : w0 >>> 63 = 0)
    (h1 : v1 >>> 63 ≠ 0) (h2 : v2 >>> 63 ≠ 0)
    (h3 : v3 >>> 63 = 0) (hst : v3 >>> 32 % 2 ^ 8 = 0) :
    poll_result (Except.ok v1 :: Except.ok v2 :: Except.ok v3 :: rest)
      = some (Except.ok (Except.ok (v3 % 2 ^ 32)), rest)
    ∧ cmd command param1 param2 data
        ⟨Except.ok w0 :: Except.ok v1 :: Except.ok v2 :: Except.ok v3 :: rest,
          Except.ok ()⟩
      = some (Except.ok (v3 % 2 ^ 32))
    ∧ (∀ l : List ReadResult, (∃ v, Except.ok v ∈ l ∧ v >>> 63 = 0) →
        (poll_result l).isSome = true) := by
  have hawait :
      poll_result (Except.ok v1 :: Except.ok v2 :: Except.ok v3 :: rest)
      = some (Except.ok (Except.ok (v3 % 2 ^ 32)), rest) := by
    simp only [poll_result, pollStep_busy h1, pollStep_busy h2,
      pollStep_idle_ok h3 hst]
  refine ⟨hawait, ?_, fun l hl => poll_result_terminates l hl⟩
  have hdrain :
      poll_result (Except.ok w0 :: Except.ok v1 :: Except.ok v2 ::
        Except.ok v3 :: rest)
      = some (Except.ok ((pollStep w0).getD (Except.ok 0)),
          Except.ok v1 :: Except.ok v2 :: Except.ok v3 :: rest) :=
    poll_result_first_idle _ hw0
  simp [cmd, hdrain, hawait]

theorem claim_C4_witness :
    ((0 : Nat) >>> 63 = 0)
    ∧ ((1 : Nat) <<< 63 >>> 63 ≠ 0) ∧ ((1 : Nat) <<< 63 >>> 63 ≠ 0)
    ∧ ((0x2a : Nat) >>> 63 = 0) ∧ ((0x2a : Nat) >>> 32 % 2 ^ 8 = 0)
    ∧ (poll_result [Except.ok (1 <<< 63), Except.ok (1 <<< 63), Except.ok 0x2a]
        = some (Except.ok (Except.ok (0x2a % 2 ^ 32)), [])
      ∧ cmd 0x10 0 0 0
          ⟨[Except.ok 0, Except.ok (1 <<< 63), Except.ok (1 <<< 63),
            Except.ok 0x2a], Except.ok ()⟩
        = some (Except.ok (0x2a % 2 ^ 32))
      ∧ (∀ l : List ReadResult, (∃ v, Except.ok v ∈ l ∧ v >>> 63 = 0) →
          (poll_result l).isSome = true)) :=
  ⟨by decide, by decide, by decide, by decide, by decide,
    claim_C4 0x10 0 0 0 0 (1 <<< 63) (1 <<< 63) 0x2a []
      (by decide) (by decide) (by decide) (by decide) (by decide)⟩

/-- C7: A leftover response found during the drain phase is discarded,
never reported: when the first idle word `w0` the drain observes has a
nonzero status byte, cmd still proceeds to write the request word, and
its result is the same as with any other idle drain word; but a register
read failure during the drain phase (after any number of busy reads)
aborts the whole exchange with that I/O error. -/
theorem claim_C7 (command param1 param2 data w0 w0' : Nat)
    (rest l : List ReadResult) (wr : Except String Unit)
    (pre : List Nat) (e : String)
    (hw0 : w0 >>> 63 = 0) (hst : w0 >>> 32 % 2 ^ 8 ≠ 0)
    (hw0' : w0' >>> 63 = 0)
    (hpre : ∀ v ∈ pre, v >>> 63 ≠ 0) :
    cmdWrites command param1 param2 data ⟨Except.ok w0 :: rest, wr⟩
      = [cmdMsg command param1 param2 data]
    ∧ cmd command param1 param2 data ⟨Except.ok w0 :: rest, wr⟩
      = cmd command param1 param2 data ⟨Except.ok w0' :: rest, wr⟩
    ∧ cmd command param1 param2 data ⟨pre.map Except.ok ++ Except.error e :: l, wr⟩
      = some (Except.error e) := by
  refine ⟨?_, ?_, ?_⟩
  · simp [cmdWrites, poll_result_first_idle _ hw0]
  · simp [cmd, poll_result_first_idle _ hw0, poll_result_first_idle _ hw0']
  · simp [cmd, poll_result_skip_busy pre _ hpre, poll_result_read_err]

theorem claim_C7_witness :
    ((1 : Nat) <<< 32 >>> 63 = 0) ∧ ((1 : Nat) <<< 32 >>> 32 % 2 ^ 8 ≠ 0)
    ∧ ((0 : Nat) >>> 63 = 0)
    ∧ (∀ v ∈ [(1 : Nat) <<< 63], v >>> 63 ≠ 0)
    ∧ (cmdWrites 0x10 1 0 0 ⟨Except.ok (1 <<< 32) :: [Except.ok 7], Except.ok ()⟩
        = [cmdMsg 0x10 1 0 0]
      ∧ cmd 0x10 1 0 0 ⟨Except.ok (1 <<< 32) :: [Except.ok 7], Except.ok ()⟩
        = cmd 0x10 1 0 0 ⟨Except.ok 0 :: [Except.ok 7], Except.ok ()⟩
      ∧ cmd 0x10 1 0 0
          ⟨[(1 : Nat) <<< 63].map Except.ok ++ Except.error "read failed" :: [],
            Except.ok ()⟩
        = some (Except.error "read failed")) :=
  ⟨by decide, by decide, by decide, by decide,
    claim_C7 0x10 1 0 0 (1 <<< 32) 0 [Except.ok 7] [] (Except.ok ())
      [1 <<< 63] "read failed"
      (by decide) (by decide) (by decide) (by decide)⟩

/-- C9: Response bits 40-62 are ignored: any two 64-bit register values
that agree on bit 63, on bits 32-39, and on bits 0-31 produce the same
outcome of the mailbox decode step (the poll loop body), so bits 40-62
of a response word never influence the result of cmd. -/
theorem claim_C9 (v1 v2 : Nat)
    (hb1 : v1 < 2 ^ 64) (hb2 : v2 < 2 ^ 64)
    (h63 : v1.testBit 63 = v2.testBit 63)
    (hstat : ∀ i, i < 40 → 32 ≤ i → v1.testBit i = v2.testBit i)
    (hlow : ∀ i, i < 32 → v1.testBit i = v2.testBit i) :
    pollStep v1 = pollStep v2 := by
  have hr : v1 >>> 63 = v2 >>> 63 := by
    apply Nat.eq_of_testBit_eq
    intro i
    simp only [Nat.testBit_shiftRight]
    rcases Nat.eq_zero_or_pos i with rfl | hi
    · simpa using h63
    · have hle : 2 ^ 64 ≤ 2 ^ (63 + i) := Nat.pow_le_pow_right (by norm_num) (by omega)
      rw [Nat.testBit_lt_two_pow (lt_of_lt_of_le hb1 hle),
        Nat.testBit_lt_two_pow (lt_of_lt_of_le hb2 hle)]
  have hc : v1 >>> 32 % 2 ^ 8 = v2 >>> 32 % 2 ^ 8 := by
    apply Nat.eq_of_testBit_eq
    intro i
    simp only [Nat.testBit_mod_two_pow, Nat.testBit_shiftRight]
    by_cases h : i < 8
    · simp [h, hstat (32 + i) (by omega) (by omega)]
    · simp [h]
  have hd : v1 % 2 ^ 32 = v2 % 2 ^ 32 := by
    apply Nat.eq_of_testBit_eq
    intro i
    simp only [Nat.testBit_mod_two_pow]
    by_cases h : i < 32
    · simp [h, hlow i h]
    · simp [h]
  simp only [pollStep, hr, hc, hd]

theorem claim_C9_witness :
    ((5 : Nat) < 2 ^ 64) ∧ ((5 : Nat) + (1 <<< 45) < 2 ^ 64)
    ∧ (Nat.testBit 5 63 = Nat.testBit (5 + (1 <<< 45)) 63)
    ∧ (∀ i, i < 40 → 32 ≤ i → Nat.testBit 5 i = Nat.testBit (5 + (1 <<< 45)) i)
    ∧ (∀ i, i < 32 → Nat.testBit 5 i = Nat.testBit (5 + (1 <<< 45)) i)
    ∧ pollStep 5 = pollStep (5 + (1 <<< 45)) :=
  ⟨by decide, by decide, by decide, by decide, by decide,
    claim_C9 5 (5 + (1 <<< 45)) (by decide) (by decide) (by decide)
      (by decide) (by decide)⟩

/-- C5: When no step fails, the top-level routine issues exactly five
mailbox commands, one per domain in the fixed order 0,1,2,3,4, each with
command byte 0x10, the domain value as the first parameter, and zero as
both the second parameter and the data word, and prints for each a line
with the domain index and the returned 32-bit value as 8 hexadecimal
digits. -/
theorem claim_C5 (envs : Domain → Env) (vals : Domain → Nat)
    (h : ∀ dom : Domain,
      cmd CMD_VF_OVERRIDE_READ dom.toU8 0 0 (envs dom)
        = some (Except.ok (vals dom))) :
    mainLoop envs domains = some (Except.ok
      [((0x10, 0, 0, 0), "domain 0: " ++ hex8 (vals Domain.IaCore)),
       ((0x10, 1, 0, 0), "domain 1: " ++ hex8 (vals Domain.GtSlices)),
       ((0x10, 2, 0, 0), "domain 2: " ++ hex8 (vals Domain.CboLlcRing)),
       ((0x10, 3, 0, 0), "domain 3: " ++ hex8 (vals Domain.GtUnslice)),
       ((0x10, 4, 0, 0), "domain 4: " ++ hex8 (vals Domain.SystemAgent))])
    ∧ (∀ dom : Domain, (hex8 (vals dom)).length = 8
        ∧ ∀ ch ∈ (hex8 (vals dom)).data, ch ∈ "0123456789abcdef".data) := by
  constructor
  · simp only [domains, mainLoop, domainStep, h]
    rfl
  · intro dom
    exact ⟨hex8_length _, hex8_chars _⟩

theorem claim_C5_witness :
    (∀ dom : Domain,
      cmd CMD_VF_OVERRIDE_READ dom.toU8 0 0
        ⟨[Except.ok 0, Except.ok 0x2a], Except.ok ()⟩
        = some (Except.ok 0x2a))
    ∧ (mainLoop (fun _ => ⟨[Except.ok 0, Except.ok 0x2a], Except.ok ()⟩) domains
        = some (Except.ok
          [((0x10, 0, 0, 0), "domain 0: " ++ hex8 0x2a),
           ((0x10, 1, 0, 0), "domain 1: " ++ hex8 0x2a),
           ((0x10, 2, 0, 0), "domain 2: " ++ hex8 0x2a),
           ((0x10, 3, 0, 0), "domain 3: " ++ hex8 0x2a),
           ((0x10, 4, 0, 0), "domain 4: " ++ hex8 0x2a)])
      ∧ (∀ dom : Domain, (hex8 0x2a).length = 8
          ∧ ∀ ch ∈ (hex8 0x2a).data, ch ∈ "0123456789abcdef".data)) :=
  ⟨fun dom => by cases dom <;> rfl,
    claim_C5 (fun _ => ⟨[Except.ok 0, Except.ok 0x2a], Except.ok ()⟩)
      (fun _ => 0x2a) (fun dom => by cases dom <;> rfl)⟩

end OcMbox
